import Mathlib

/-
Verification of the duh container-dashboard core: the TTL cache store
(store/memory.go), the reconciler / stats enricher / lifecycle controller
(service package), and the display ordering.

Modelling conventions:
- Go's `map[string]ContainerData` is modelled as a `List ContainerData`
  keyed by the `id` field (in every reachable store the map key equals the
  value's ID field, since `Update` stores under `container.ID` and
  `UpdateStats` rewrites the value found under the key).  Theorems that
  need key uniqueness take a `Nodup` hypothesis on the list of ids.
- `time.Time` values are modelled as integers; each operation that calls
  `time.Now()` takes the current time `now : Int` as an explicit argument.
  A whole sync pass is run at one `now`.
- Go `float64` arithmetic is modelled exactly over `ℚ`; `uint64`
  subtraction wraps modulo 2^64 (`sub64`); Go's `int(x)` cast truncates
  toward zero (`truncQ`).
- Fallible remote calls are modelled by passing their result in
  (`Option`/`Except`-style): a listing result, a per-id stats fetch
  function, a command result.
- `sort.Slice` guarantees only that the output is a permutation of the
  input that is sorted with respect to the supplied `less`; it is modelled
  with `List.mergeSort` over the complement of `less`.
-/

namespace Duh

/-! ## Data model (store/memory.go) -/

/-- store.StateStarting. -/
def StateStarting : String := "starting"

/-- store.StateStopping. -/
def StateStopping : String := "stopping"

/-- store.Stats: container resource usage statistics.  Memory usage/limit are
uint64 bytes, CPU usage is a float64 percentage (modelled as ℚ), cores a
uint32, systemMS a uint64. -/
structure Stats where
  memUsage : Nat
  memLimit : Nat
  cpuUsage : ℚ
  cpuCores : Nat
  systemMS : Nat
deriving DecidableEq

/-- store.ContainerData: one cached container snapshot.  `stats` models the
`*Stats` pointer (`none` = nil); `updated` models the internal `Updated`
timestamp used for TTL. -/
structure ContainerData where
  id : String
  names : List String
  image : String
  state : String
  status : String
  created : Int
  stats : Option Stats
  updated : Int
deriving DecidableEq

/-- docker.Container: one entry of the remote full listing (fields used by the
service package). -/
structure Container where
  id : String
  names : List String
  image : String
  state : String
  status : String
  created : Int
deriving DecidableEq

/-- docker.ContainerStats: one raw metrics sample; carries current and
previous cumulative CPU counters (uint64), online core count (uint32) and
memory usage/limit (uint64). -/
structure ContainerStats where
  cpuTotalUsage : Nat
  systemCPUUsage : Nat
  onlineCPUs : Nat
  preCpuTotalUsage : Nat
  preSystemCPUUsage : Nat
  memUsage : Nat
  memLimit : Nat
deriving DecidableEq

/-- store.Store: the containers map (as a list keyed by the id field) plus the
TTL. -/
structure Store where
  containers : List ContainerData
  ttl : Int
deriving DecidableEq

/-- Raw map lookup `s.containers[id]` (no TTL filtering). -/
def Store.lookup (s : Store) (id : String) : Option ContainerData :=
  s.containers.find? (fun c => c.id == id)

/-- Store one value under its id: replace the existing binding for that id, or
append a new one (`s.containers[c.ID] = c`). -/
def setByID (l : List ContainerData) (c : ContainerData) : List ContainerData :=
  if l.any (fun x => x.id == c.id) then
    l.map (fun x => if x.id == c.id then c else x)
  else
    l ++ [c]

/-- store.Update: preserve the existing entry's stats unless the incoming
state is "exited", stamp `updated := now`, store under the container's id. -/
def Store.update (s : Store) (container : ContainerData) (now : Int) : Store :=
  let container' :=
    match s.containers.find? (fun x => x.id == container.id) with
    | some existing =>
        if container.state ≠ "exited" then { container with stats := existing.stats }
        else container
    | none => container
  { s with containers := setByID s.containers { container' with updated := now } }

/-- store.UpdateStats: if an entry exists for `id`, replace its stats, stamp
`updated := now` and return true; otherwise return false with no effect. -/
def Store.updateStats (s : Store) (id : String) (stats : Option Stats) (now : Int) :
    Bool × Store :=
  match s.containers.find? (fun c => c.id == id) with
  | some c =>
      (true, { s with containers := setByID s.containers { c with stats := stats, updated := now } })
  | none => (false, s)

/-- store.List: all entries with `now - updated ≤ ttl` (Go keeps an entry when
`now.Sub(Updated) <= ttl`). -/
def Store.listNow (s : Store) (now : Int) : List ContainerData :=
  s.containers.filter (fun c => now - c.updated ≤ s.ttl)

/-- store.Get: raw lookup, then hide the entry when `now - updated > ttl`. -/
def Store.get (s : Store) (id : String) (now : Int) : Option ContainerData :=
  match s.containers.find? (fun c => c.id == id) with
  | none => none
  | some c => if now - c.updated > s.ttl then none else some c

/-- store.RemoveStaleData: delete every entry with `now - updated > ttl`
(keep exactly those with `now - updated ≤ ttl`). -/
def Store.removeStale (s : Store) (now : Int) : Store :=
  { s with containers := s.containers.filter (fun c => now - c.updated ≤ s.ttl) }

/-! ## Reconciler (service SyncContainers / SyncStats / Sync) -/

/-- Conversion of a fresh listing entry into the ContainerData written by the
service (stats nil, Updated at its zero value until Update stamps it). -/
def toData (c : Container) : ContainerData :=
  { id := c.id, names := c.names, image := c.image, state := c.state,
    status := c.status, created := c.created, stats := none, updated := 0 }

/-- The `containerMap` built by SyncContainers: a Go map from id to listing
entry; for duplicate ids the last assignment wins. -/
def containerMapFind (listing : List Container) (id : String) : Option Container :=
  listing.reverse.find? (fun c => c.id == id)

/-- One iteration of SyncContainers' transition-resolution loop for a stored
entry.  In the source, `!exists || dockerC.State == "running"` guards a body
that only acts `if exists`, so an update happens exactly when the listing
contains the id with the completing state. -/
def transitionStep (listing : List Container) (now : Int) (st : Store)
    (stored : ContainerData) : Store :=
  match containerMapFind listing stored.id with
  | some dockerC =>
      if stored.state == StateStarting then
        if dockerC.state == "running" then st.update (toData dockerC) now else st
      else if stored.state == StateStopping then
        if dockerC.state == "exited" then st.update (toData dockerC) now else st
      else st
  | none => st

/-- One iteration of SyncContainers' bulk-merge loop: skip entries currently
in transition (per TTL-filtered Get), otherwise overwrite with fresh fields. -/
def mergeStep (now : Int) (st : Store) (c : Container) : Store :=
  match st.get c.id now with
  | some stored =>
      if stored.state == StateStarting || stored.state == StateStopping then st
      else st.update (toData c) now
  | none => st.update (toData c) now

/-- service.SyncContainers after the listing has been fetched: the
transition-resolution loop over the snapshot `store.List()`, then the
bulk-merge loop over the fresh listing. -/
def SyncContainers (st : Store) (listing : List Container) (now : Int) : Store :=
  let st1 := (st.listNow now).foldl (transitionStep listing now) st
  listing.foldl (mergeStep now) st1

/-- 2^64, for uint64 wraparound. -/
def U64 : Nat := 2 ^ 64

/-- Go uint64 subtraction `a - b` (wraps modulo 2^64). -/
def sub64 (a b : Nat) : Nat := (a + U64 - b) % U64

/-- Go `int(q)` for a rational: truncation toward zero. -/
def truncQ (q : ℚ) : Int := if 0 ≤ q then ⌊q⌋ else ⌈q⌉

/-- The stats record built by SyncStats from one raw sample: memory copied,
CPU percent computed only when both deltas are positive as
`(cpuDelta/systemDelta) * 100 * numCPUs` (cores defaulting to 1 when the
remote reports 0) and then truncated to 2 decimal places via
`float64(int(p*100))/100`; otherwise the usage field keeps its zero value. -/
def computeStats (raw : ContainerStats) : Stats :=
  let cpuDelta := sub64 raw.cpuTotalUsage raw.preCpuTotalUsage
  let systemDelta := sub64 raw.systemCPUUsage raw.preSystemCPUUsage
  let usage : ℚ :=
    if 0 < systemDelta ∧ 0 < cpuDelta then
      let numCPUs : ℚ := if raw.onlineCPUs = 0 then 1 else (raw.onlineCPUs : ℚ)
      let cpuPercent : ℚ := ((cpuDelta : ℚ) / (systemDelta : ℚ)) * 100 * numCPUs
      ((truncQ (cpuPercent * 100) : ℚ)) / 100
    else 0
  { memUsage := raw.memUsage, memLimit := raw.memLimit, cpuUsage := usage,
    cpuCores := raw.onlineCPUs, systemMS := raw.systemCPUUsage / 1000000 }

/-- One per-container enrichment task of SyncStats: only for listing entries
whose state is "running"; a failed fetch is skipped; a successful fetch
replaces the entry's stats via UpdateStats. -/
def syncStatsStep (fetch : String → Option ContainerStats) (now : Int)
    (st : Store) (c : Container) : Store :=
  if c.state == "running" then
    match fetch c.id with
    | some raw => (st.updateStats c.id (some (computeStats raw)) now).2
    | none => st
  else st

/-- service.SyncStats: the goroutines are joined before the pass continues and
each touches only its own id, so the fan-out is modelled as a fold. -/
def SyncStats (st : Store) (listing : List Container)
    (fetch : String → Option ContainerStats) (now : Int) : Store :=
  listing.foldl (syncStatsStep fetch now) st

/-- service.Sync: list (abort on error with no mutation), SyncContainers,
SyncStats, RemoveStaleData.  Returns the resulting store and the error
returned to the caller. -/
def Sync (st : Store) (listingResult : Except String (List Container))
    (fetch : String → Option ContainerStats) (now : Int) : Store × Option String :=
  match listingResult with
  | Except.error e => (st, some e)
  | Except.ok listing =>
      let st1 := SyncContainers st listing now
      let st2 := SyncStats st1 listing fetch now
      (st2.removeStale now, none)

/-! ## Lifecycle controller (service StartContainer / StopContainer) -/

/-- The zero value of store.ContainerData. -/
def emptyData : ContainerData :=
  { id := "", names := [], image := "", state := "", status := "",
    created := 0, stats := none, updated := 0 }

/-- service.StartContainer.  `preListing` is the result of the one-off listing
used to seed an unknown container (`none` = the call failed), `cmdErr` the
result of the remote start command, `postListing` the result of the
rollback re-query.  Returns the store and the error returned to the
caller.  Note the seed loop copies only id/names/image/created, and when
the container is found nowhere the zero value (whose ID is "") is used. -/
def StartContainer (st : Store) (id : String)
    (preListing : Option (List Container)) (cmdErr : Option String)
    (postListing : Option (List Container)) (now : Int) : Store × Option String :=
  let existing : ContainerData :=
    match st.get id now with
    | some e => e
    | none =>
        match preListing with
        | some cs =>
            match cs.find? (fun c => c.id == id) with
            | some c =>
                { id := c.id, names := c.names, image := c.image,
                  created := c.created, state := "", status := "",
                  stats := none, updated := 0 }
            | none => emptyData
        | none => emptyData
  let marked := { existing with state := StateStarting, status := "Starting" }
  let st1 := st.update marked now
  match cmdErr with
  | none => (st1, none)
  | some err =>
      match postListing with
      | some cs =>
          match cs.find? (fun c => c.id == id) with
          | some c =>
              (st1.update { marked with state := c.state, status := c.status } now, some err)
          | none => (st1, some err)
      | none => (st1, some err)

/-- service.StopContainer: identical to StartContainer with the stopping
marker and the remote stop command. -/
def StopContainer (st : Store) (id : String)
    (preListing : Option (List Container)) (cmdErr : Option String)
    (postListing : Option (List Container)) (now : Int) : Store × Option String :=
  let existing : ContainerData :=
    match st.get id now with
    | some e => e
    | none =>
        match preListing with
        | some cs =>
            match cs.find? (fun c => c.id == id) with
            | some c =>
                { id := c.id, names := c.names, image := c.image,
                  created := c.created, state := "", status := "",
                  stats := none, updated := 0 }
            | none => emptyData
        | none => emptyData
  let marked := { existing with state := StateStopping, status := "Stopping" }
  let st1 := st.update marked now
  match cmdErr with
  | none => (st1, none)
  | some err =>
      match postListing with
      | some cs =>
          match cs.find? (fun c => c.id == id) with
          | some c =>
              (st1.update { marked with state := c.state, status := c.status } now, some err)
          | none => (st1, some err)
      | none => (st1, some err)

/-! ## Display ordering (service sortContainers / List) -/

/-- service.getStatusPriority. -/
def getStatusPriority (state : String) : Nat :=
  if state == "running" then 0
  else if state == StateStopping then 1
  else if state == StateStarting then 2
  else if state == "exited" then 3
  else 4

/-- The `less` closure passed to sort.Slice in service.sortContainers. -/
def containerLess (a b : ContainerData) : Bool :=
  let iPriority := getStatusPriority a.state
  let jPriority := getStatusPriority b.state
  if iPriority ≠ jPriority then decide (iPriority < jPriority)
  else
    match a.stats, b.stats with
    | some sa, some sb =>
        if sa.memUsage ≠ sb.memUsage then decide (sa.memUsage > sb.memUsage)
        else decide (a.created > b.created)
    | some _, none => true
    | none, some _ => false
    | none, none => decide (a.created > b.created)

/-- service.sortContainers: sort.Slice contract — the output is a permutation
of the input with no pair out of order with respect to `containerLess`. -/
def sortContainers (l : List ContainerData) : List ContainerData :=
  l.mergeSort (fun a b => ! containerLess b a)

/-- service.ContainerService.List: TTL-filtered store listing, sorted. -/
def serviceList (st : Store) (now : Int) : List ContainerData :=
  sortContainers (st.listNow now)

/-! ## Basic store lemmas -/

theorem find?_cons_pos (p : ContainerData → Bool) (a : ContainerData)
    (l : List ContainerData) (h : p a = true) :
    List.find? p (a :: l) = some a := by
  simp [List.find?_cons, h]

theorem find?_cons_neg (p : ContainerData → Bool) (a : ContainerData)
    (l : List ContainerData) (h : p a = false) :
    List.find? p (a :: l) = List.find? p l := by
  simp [List.find?_cons, h]

theorem find?_replace_self (l : List ContainerData) (c : ContainerData)
    (h : l.any (fun x => x.id == c.id) = true) :
    (l.map (fun x => if x.id == c.id then c else x)).find? (fun x => x.id == c.id) =
      some c := by
  induction l with
  | nil => simp at h
  | cons x xs ih =>
      rw [List.map_cons]
      by_cases hx : (x.id == c.id) = true
      · rw [if_pos hx, find?_cons_pos (fun x => x.id == c.id) c _ (by simp)]
      · rw [if_neg hx,
          find?_cons_neg (fun x => x.id == c.id) x _ (by simpa using hx)]
        apply ih
        rcases List.any_eq_true.mp h with ⟨y, hy, hpy⟩
        rcases List.mem_cons.mp hy with rfl | hy'
        · exact absurd hpy hx
        · exact List.any_eq_true.mpr ⟨y, hy', hpy⟩

theorem find?_replace_ne (l : List ContainerData) (c : ContainerData) (i : String)
    (h : i ≠ c.id) :
    (l.map (fun x => if x.id == c.id then c else x)).find? (fun x => x.id == i) =
      l.find? (fun x => x.id == i) := by
  induction l with
  | nil => rfl
  | cons x xs ih =>
      rw [List.map_cons]
      by_cases hx : (x.id == c.id) = true
      · have hxc : x.id = c.id := by simpa using hx
        have h1 : (c.id == i) = false := by
          simp only [beq_eq_false_iff_ne, ne_eq]
          exact fun e => h e.symm
        have h2 : (x.id == i) = false := by
          rw [hxc]
          exact h1
        rw [if_pos hx, find?_cons_neg (fun x => x.id == i) c _ h1,
          find?_cons_neg (fun x => x.id == i) x _ h2, ih]
      · rw [if_neg hx]
        by_cases hpx : (x.id == i) = true
        · rw [find?_cons_pos (fun x => x.id == i) x _ hpx,
            find?_cons_pos (fun x => x.id == i) x _ hpx]
        · rw [find?_cons_neg (fun x => x.id == i) x _ (by simpa using hpx),
            find?_cons_neg (fun x => x.id == i) x _ (by simpa using hpx), ih]

theorem find?_setByID_self (l : List ContainerData) (c : ContainerData) :
    (setByID l c).find? (fun x => x.id == c.id) = some c := by
  unfold setByID
  by_cases h : l.any (fun x => x.id == c.id) = true
  · rw [if_pos h]
    exact find?_replace_self l c h
  · rw [if_neg h]
    have hn : l.find? (fun x => x.id == c.id) = none := by
      rw [List.find?_eq_none]
      intro x hxl hpx
      exact h (List.any_eq_true.mpr ⟨x, hxl, hpx⟩)
    rw [List.find?_append, hn]
    simp

theorem find?_setByID_ne (l : List ContainerData) (c : ContainerData) (i : String)
    (h : i ≠ c.id) :
    (setByID l c).find? (fun x => x.id == i) = l.find? (fun x => x.id == i) := by
  unfold setByID
  by_cases hA : l.any (fun x => x.id == c.id) = true
  · rw [if_pos hA]
    exact find?_replace_ne l c i h
  · rw [if_neg hA]
    rw [List.find?_append]
    have h1 : ¬ ((c.id == i) = true) := by
      simp only [beq_iff_eq]
      exact fun e => h e.symm
    have hc : List.find? (fun x => x.id == i) [c] = none := by
      rw [List.find?_eq_none]
      intro x hx
      rw [List.mem_singleton.mp hx]
      exact h1
    rw [hc]
    cases l.find? (fun x => x.id == i) <;> rfl

/-- The id of the entry found by a lookup is the looked-up id. -/
theorem lookup_id (s : Store) (i : String) (e : ContainerData)
    (h : s.lookup i = some e) : e.id = i := by
  have := List.find?_some h
  simpa using this

/-- The entry found by a lookup is a member of the store. -/
theorem lookup_mem (s : Store) (i : String) (e : ContainerData)
    (h : s.lookup i = some e) : e ∈ s.containers :=
  List.mem_of_find?_eq_some h

/-- Update at an existing id, described at the lookup level: the incoming
snapshot is stored with stats carried forward unless its state is
"exited", stamped with the current time. -/
theorem update_containers_live (s : Store) (c : ContainerData) (now : Int)
    (existing : ContainerData) (h : s.lookup c.id = some existing)
    (hs : c.state ≠ "exited") :
    (s.update c now).containers =
      setByID s.containers { c with stats := existing.stats, updated := now } := by
  unfold Store.lookup at h
  simp only [Store.update, h]
  simp [hs]

theorem update_containers_exited (s : Store) (c : ContainerData) (now : Int)
    (existing : ContainerData) (h : s.lookup c.id = some existing)
    (hs : c.state = "exited") :
    (s.update c now).containers = setByID s.containers { c with updated := now } := by
  unfold Store.lookup at h
  simp only [Store.update, h]
  simp [hs]

theorem update_containers_notfound (s : Store) (c : ContainerData) (now : Int)
    (h : s.lookup c.id = none) :
    (s.update c now).containers = setByID s.containers { c with updated := now } := by
  unfold Store.lookup at h
  simp only [Store.update, h]

theorem lookup_update_live (s : Store) (c : ContainerData) (now : Int)
    (existing : ContainerData) (h : s.lookup c.id = some existing)
    (hs : c.state ≠ "exited") :
    (s.update c now).lookup c.id =
      some { c with stats := existing.stats, updated := now } := by
  unfold Store.lookup
  rw [update_containers_live s c now existing h hs]
  exact find?_setByID_self s.containers { c with stats := existing.stats, updated := now }

theorem lookup_update_exited (s : Store) (c : ContainerData) (now : Int)
    (existing : ContainerData) (h : s.lookup c.id = some existing)
    (hs : c.state = "exited") :
    (s.update c now).lookup c.id = some { c with updated := now } := by
  unfold Store.lookup
  rw [update_containers_exited s c now existing h hs]
  exact find?_setByID_self s.containers { c with updated := now }

/-- Update at a fresh id stores the incoming snapshot stamped with now. -/
theorem lookup_update_notfound (s : Store) (c : ContainerData) (now : Int)
    (h : s.lookup c.id = none) :
    (s.update c now).lookup c.id = some { c with updated := now } := by
  unfold Store.lookup
  rw [update_containers_notfound s c now h]
  exact find?_setByID_self s.containers { c with updated := now }

/-- Update leaves every other id's entry alone. -/
theorem lookup_update_ne (s : Store) (c : ContainerData) (now : Int) (i : String)
    (h : i ≠ c.id) : (s.update c now).lookup i = s.lookup i := by
  cases hf : s.lookup c.id with
  | none =>
      unfold Store.lookup
      rw [update_containers_notfound s c now hf]
      exact find?_setByID_ne s.containers { c with updated := now } i h
  | some existing =>
      by_cases hs : c.state = "exited"
      · unfold Store.lookup
        rw [update_containers_exited s c now existing hf hs]
        exact find?_setByID_ne s.containers { c with updated := now } i h
      · unfold Store.lookup
        rw [update_containers_live s c now existing hf hs]
        exact find?_setByID_ne s.containers
          { c with stats := existing.stats, updated := now } i h

theorem update_ttl (s : Store) (c : ContainerData) (now : Int) :
    (s.update c now).ttl = s.ttl := rfl

/-- UpdateStats at an existing id: returns true and replaces exactly the
stats and the timestamp of that entry. -/
theorem updateStats_found (s : Store) (i : String) (stats : Option Stats) (now : Int)
    (e : ContainerData) (h : s.lookup i = some e) :
    s.updateStats i stats now =
      (true, { s with
               containers := setByID s.containers
                 { e with stats := stats, updated := now } }) := by
  unfold Store.lookup at h
  simp only [Store.updateStats, h]

/-- UpdateStats at an absent id: returns false with the store unchanged. -/
theorem updateStats_notfound (s : Store) (i : String) (stats : Option Stats) (now : Int)
    (h : s.lookup i = none) : s.updateStats i stats now = (false, s) := by
  unfold Store.lookup at h
  simp only [Store.updateStats, h]

theorem lookup_updateStats_self (s : Store) (i : String) (stats : Option Stats)
    (now : Int) (e : ContainerData) (h : s.lookup i = some e) :
    (s.updateStats i stats now).2.lookup i =
      some { e with stats := stats, updated := now } := by
  have hid : e.id = i := lookup_id s i e h
  rw [updateStats_found s i stats now e h]
  unfold Store.lookup
  rw [hid]
  have h2 := find?_setByID_self s.containers { e with stats := stats, updated := now }
  rw [hid] at h2
  exact h2

theorem lookup_updateStats_ne (s : Store) (i : String) (stats : Option Stats)
    (now : Int) (j : String) (h : j ≠ i) :
    (s.updateStats i stats now).2.lookup j = s.lookup j := by
  cases hf : s.lookup i with
  | none => rw [updateStats_notfound s i stats now hf]
  | some e =>
      have hid : e.id = i := lookup_id s i e hf
      rw [updateStats_found s i stats now e hf]
      unfold Store.lookup
      exact find?_setByID_ne s.containers { e with stats := stats, updated := now } j
        (by simpa [hid] using h)

theorem updateStats_ttl (s : Store) (i : String) (stats : Option Stats) (now : Int) :
    (s.updateStats i stats now).2.ttl = s.ttl := by
  cases hf : s.lookup i with
  | none => rw [updateStats_notfound s i stats now hf]
  | some e => rw [updateStats_found s i stats now e hf]

/-- Get, described through the raw lookup and the TTL. -/
theorem get_eq (s : Store) (i : String) (now : Int) :
    s.get i now = match s.lookup i with
      | none => none
      | some c => if now - c.updated > s.ttl then none else some c := rfl

theorem get_of_lookup_some (s : Store) (i : String) (now : Int) (e : ContainerData)
    (h : s.lookup i = some e) :
    s.get i now = if now - e.updated > s.ttl then none else some e := by
  rw [get_eq, h]

theorem get_of_lookup_none (s : Store) (i : String) (now : Int)
    (h : s.lookup i = none) : s.get i now = none := by
  rw [get_eq, h]

/-- In a store whose ids are distinct, any member carrying the looked-up id
is the entry the lookup returns. -/
theorem mem_eq_of_lookup (s : Store) (i : String) (e : ContainerData)
    (hnd : (s.containers.map (fun c => c.id)).Nodup)
    (h : s.lookup i = some e) (x : ContainerData)
    (hx : x ∈ s.containers) (hxi : x.id = i) : x = e := by
  have hmem : e ∈ s.containers := lookup_mem s i e h
  have hid : e.id = i := lookup_id s i e h
  exact List.inj_on_of_nodup_map hnd hx hmem (by rw [hxi, hid])

/-! ## Claim C2: stats preservation under update -/

/-- Claim C2 (amended): after update(s) on a store already holding an entry
for s.id, if s.state is not "exited" the stored entry is s with the
previous stats carried forward; if s.state is "exited" the stored entry is
s with its own incoming stats field (nil at every reconciler call site),
not forcibly cleared.  Both cases stamp updated := now. -/
theorem c2_stats_preservation (st : Store) (s : ContainerData) (now : Int)
    (e : ContainerData) (he : st.lookup s.id = some e) :
    (s.state ≠ "exited" →
      (st.update s now).lookup s.id = some { s with stats := e.stats, updated := now }) ∧
    (s.state = "exited" →
      (st.update s now).lookup s.id = some { s with updated := now }) := by
  constructor
  · intro hs
    exact lookup_update_live st s now e he hs
  · intro hs
    exact lookup_update_exited st s now e he hs

/-- Witness for C2 at a concrete store and snapshot. -/
def statSigma : Stats :=
  { memUsage := 7, memLimit := 8, cpuUsage := 50, cpuCores := 1, systemMS := 2 }

def entryRunning : ContainerData :=
  { id := "a", names := ["n"], image := "img", state := "running",
    status := "Up", created := 3, stats := some statSigma, updated := 0 }

def stWitness : Store := { containers := [entryRunning], ttl := 10 }

def snapPending : ContainerData :=
  { id := "a", names := ["n"], image := "img", state := "pending",
    status := "P", created := 3, stats := none, updated := 0 }

theorem c2_stats_preservation_witness :
    stWitness.lookup "a" = some entryRunning ∧
    (stWitness.update snapPending 5).lookup "a" =
      some { snapPending with stats := some statSigma, updated := 5 } := by
  refine ⟨by decide, ?_⟩
  have h := (c2_stats_preservation stWitness snapPending 5 entryRunning (by decide)).1
    (by decide)
  exact h

/-- Counterexample to C2 as stated: updating with state "exited" does not
clear stats when the incoming snapshot itself carries stats — the incoming
stats are stored as-is. -/
def snapExited : ContainerData :=
  { id := "a", names := [], image := "", state := "exited",
    status := "Exited", created := 0, stats := some statSigma, updated := 0 }

theorem c2_counterexample :
    ((stWitness.update snapExited 5).lookup "a").map (fun c => c.stats) =
      some (some statSigma) ∧ some statSigma ≠ (none : Option Stats) := by
  constructor
  · decide
  · decide

/-! ## Claim C3: TTL visibility -/

/-- Claim C3: an entry written at time e.updated is returned by get and
included in list while now - updated ≤ ttl; once now - updated > ttl it is
invisible to both even before any purge; RemoveStaleData keeps exactly the
entries with now - updated ≤ ttl. -/
theorem c3_ttl_visibility (st : Store) (id : String) (e : ContainerData) (now : Int)
    (hnd : (st.containers.map (fun c => c.id)).Nodup)
    (he : st.lookup id = some e) :
    (now - e.updated ≤ st.ttl → st.get id now = some e ∧ e ∈ st.listNow now) ∧
    (st.ttl < now - e.updated →
      st.get id now = none ∧ ∀ c ∈ st.listNow now, c.id ≠ id) ∧
    (∀ c, c ∈ (st.removeStale now).containers ↔
      c ∈ st.containers ∧ now - c.updated ≤ st.ttl) := by
  refine ⟨fun hfresh => ?_, fun hstale => ?_, fun c => ?_⟩
  · constructor
    · rw [get_of_lookup_some st id now e he, if_neg (not_lt.mpr hfresh)]
    · exact List.mem_filter.mpr ⟨lookup_mem st id e he, decide_eq_true hfresh⟩
  · constructor
    · rw [get_of_lookup_some st id now e he, if_pos hstale]
    · intro c hc hcid
      have hmem := List.mem_filter.mp hc
      have : c = e := mem_eq_of_lookup st id e hnd he c hmem.1 hcid
      subst this
      exact absurd (of_decide_eq_true hmem.2) (not_le.mpr hstale)
  · unfold Store.removeStale
    constructor
    · intro hc
      have hmem := List.mem_filter.mp hc
      exact ⟨hmem.1, of_decide_eq_true hmem.2⟩
    · intro hc
      exact List.mem_filter.mpr ⟨hc.1, decide_eq_true hc.2⟩

theorem c3_ttl_visibility_witness :
    stWitness.lookup "a" = some entryRunning ∧
    (stWitness.get "a" 5 = some entryRunning ∧ entryRunning ∈ stWitness.listNow 5) ∧
    (stWitness.get "a" 100 = none ∧ ∀ c ∈ stWitness.listNow 100, c.id ≠ "a") ∧
    (stWitness.removeStale 100).containers = [] := by
  have h := c3_ttl_visibility stWitness "a" entryRunning 5 (by decide) (by decide)
  have h100 := c3_ttl_visibility stWitness "a" entryRunning 100 (by decide) (by decide)
  refine ⟨by decide, h.1 (by decide), h100.2.1 (by decide), by decide⟩

/-! ## Claim C4: sync abort atomicity -/

/-- Claim C4: if the full-listing fetch fails, Sync returns that error and
the store component is exactly the input store — nothing was created,
modified, stats-updated or purged. -/
theorem c4_sync_abort (st : Store) (msg : String)
    (fetch : String → Option ContainerStats) (now : Int) :
    Sync st (Except.error msg) fetch now = (st, some msg) := rfl

/-! ## Claim C9: updateStats totality -/

/-- Claim C9: updateStats returns false and leaves the whole store unchanged
when no entry exists for the id; when an entry exists it returns true,
replaces that entry's stats, stamps its updated time, and leaves every
other id's entry alone. -/
theorem c9_updateStats_totality (st : Store) (id : String) (stats : Option Stats)
    (now : Int) :
    (st.lookup id = none → st.updateStats id stats now = (false, st)) ∧
    (∀ e, st.lookup id = some e →
      (st.updateStats id stats now).1 = true ∧
      (st.updateStats id stats now).2.lookup id =
        some { e with stats := stats, updated := now } ∧
      ∀ j, j ≠ id → (st.updateStats id stats now).2.lookup j = st.lookup j) := by
  refine ⟨fun h => updateStats_notfound st id stats now h, fun e he => ⟨?_,
    lookup_updateStats_self st id stats now e he,
    fun j hj => lookup_updateStats_ne st id stats now j hj⟩⟩
  rw [updateStats_found st id stats now e he]

theorem c9_updateStats_totality_witness :
    stWitness.lookup "a" = some entryRunning ∧
    (stWitness.updateStats "a" none 5).1 = true ∧
    (stWitness.updateStats "a" none 5).2.lookup "a" =
      some { entryRunning with stats := none, updated := 5 } ∧
    stWitness.lookup "zzz" = none ∧
    stWitness.updateStats "zzz" none 5 = (false, stWitness) := by
  have h := (c9_updateStats_totality stWitness "a" none 5).2 entryRunning (by decide)
  exact ⟨by decide, h.1, h.2.1, by decide,
    (c9_updateStats_totality stWitness "zzz" none 5).1 (by decide)⟩

/-! ## Claim C10: stale entries still feed carry-forward and are resurrected -/

/-- Claim C10: for a stale but unpurged entry, update with a non-exited
snapshot of the same id still carries the stale entry's stats forward
(the carry-forward check reads raw storage, not the TTL-filtered get), and
the entry becomes visible to get and list again with updated refreshed. -/
theorem c10_stale_carry_forward (st : Store) (id : String) (e s : ContainerData)
    (now : Int) (he : st.lookup id = some e)
    (hstale : st.ttl < now - e.updated)
    (hid : s.id = id) (hs : s.state ≠ "exited") (httl : 0 ≤ st.ttl) :
    (st.update s now).lookup id = some { s with stats := e.stats, updated := now } ∧
    (st.update s now).get id now = some { s with stats := e.stats, updated := now } ∧
    { s with stats := e.stats, updated := now } ∈ (st.update s now).listNow now := by
  have he' : st.lookup s.id = some e := by rw [hid]; exact he
  have hlook : (st.update s now).lookup id =
      some { s with stats := e.stats, updated := now } := by
    rw [← hid]
    exact lookup_update_live st s now e he' hs
  refine ⟨hlook, ?_, ?_⟩
  · rw [get_of_lookup_some (st.update s now) id now _ hlook, update_ttl,
      if_neg (show ¬ st.ttl < now - now by omega)]
  · refine List.mem_filter.mpr ⟨lookup_mem _ id _ hlook, decide_eq_true ?_⟩
    rw [update_ttl]
    show now - now ≤ st.ttl
    omega

/-! ## Reconciler lemmas for Claim C1 -/

theorem foldl_ttl {β : Type} (step : Store → β → Store)
    (hstep : ∀ st b, (step st b).ttl = st.ttl) :
    ∀ (xs : List β) (st : Store), (xs.foldl step st).ttl = st.ttl := by
  intro xs
  induction xs with
  | nil => intro st; rfl
  | cons x xs ih => intro st; rw [List.foldl_cons, ih, hstep]

theorem containerMapFind_id (listing : List Container) (i : String) (dc : Container)
    (h : containerMapFind listing i = some dc) : dc.id = i := by
  unfold containerMapFind at h
  simpa using List.find?_some h

theorem containerMapFind_mem (listing : List Container) (i : String) (dc : Container)
    (h : containerMapFind listing i = some dc) : dc ∈ listing := by
  unfold containerMapFind at h
  exact List.mem_reverse.mp (List.mem_of_find?_eq_some h)

/-- Split a list with pairwise distinct keys at the member carrying key i. -/
theorem split_unique_keys {α : Type} (f : α → String) (l : List α) (e : α) (i : String)
    (hnd : (l.map f).Nodup) (hmem : e ∈ l) (hei : f e = i) :
    ∃ l1 l2, l = l1 ++ e :: l2 ∧ (∀ x ∈ l1, f x ≠ i) ∧ (∀ x ∈ l2, f x ≠ i) := by
  obtain ⟨l1, l2, rfl⟩ := List.append_of_mem hmem
  rw [List.map_append, List.map_cons] at hnd
  rcases List.nodup_append.mp hnd with ⟨nd1, nd2, disj⟩
  refine ⟨l1, l2, rfl, ?_, ?_⟩
  · intro x hx hxi
    exact disj (List.mem_map_of_mem f hx)
      (by rw [hxi, ← hei]; exact List.mem_cons_self (f e) (l2.map f))
  · intro x hx hxi
    have hnotmem : f e ∉ l2.map f := (List.nodup_cons.mp nd2).1
    exact hnotmem (by rw [hei, ← hxi]; exact List.mem_map_of_mem f hx)

theorem transitionStep_start_complete (listing : List Container) (now : Int)
    (acc : Store) (e : ContainerData) (dc : Container)
    (hm : containerMapFind listing e.id = some dc)
    (hs : e.state = StateStarting) (hdc : dc.state = "running") :
    transitionStep listing now acc e = acc.update (toData dc) now := by
  simp [transitionStep, hm, hs, hdc]

theorem transitionStep_start_incomplete (listing : List Container) (now : Int)
    (acc : Store) (e : ContainerData) (dc : Container)
    (hm : containerMapFind listing e.id = some dc)
    (hs : e.state = StateStarting) (hdc : dc.state ≠ "running") :
    transitionStep listing now acc e = acc := by
  simp [transitionStep, hm, hs, hdc, StateStarting, StateStopping]

theorem transitionStep_stop_complete (listing : List Container) (now : Int)
    (acc : Store) (e : ContainerData) (dc : Container)
    (hm : containerMapFind listing e.id = some dc)
    (hs : e.state = StateStopping) (hdc : dc.state = "exited") :
    transitionStep listing now acc e = acc.update (toData dc) now := by
  simp [transitionStep, hm, hs, hdc, StateStarting, StateStopping]

theorem transitionStep_stop_incomplete (listing : List Container) (now : Int)
    (acc : Store) (e : ContainerData) (dc : Container)
    (hm : containerMapFind listing e.id = some dc)
    (hs : e.state = StateStopping) (hdc : dc.state ≠ "exited") :
    transitionStep listing now acc e = acc := by
  simp [transitionStep, hm, hs, hdc, StateStarting, StateStopping]

theorem transitionStep_absent (listing : List Container) (now : Int)
    (acc : Store) (e : ContainerData)
    (hm : containerMapFind listing e.id = none) :
    transitionStep listing now acc e = acc := by
  simp [transitionStep, hm]

theorem transitionStep_nonsticky (listing : List Container) (now : Int)
    (acc : Store) (e : ContainerData)
    (hs1 : e.state ≠ StateStarting) (hs2 : e.state ≠ StateStopping) :
    transitionStep listing now acc e = acc := by
  cases hm : containerMapFind listing e.id <;>
    simp [transitionStep, hm, hs1, hs2]

theorem transitionStep_ttl (listing : List Container) (now : Int) (st : Store)
    (stored : ContainerData) : (transitionStep listing now st stored).ttl = st.ttl := by
  cases hm : containerMapFind listing stored.id with
  | none => rw [transitionStep_absent listing now st stored hm]
  | some dc =>
      by_cases h1 : stored.state = StateStarting
      · by_cases h2 : dc.state = "running"
        · rw [transitionStep_start_complete listing now st stored dc hm h1 h2, update_ttl]
        · rw [transitionStep_start_incomplete listing now st stored dc hm h1 h2]
      · by_cases h3 : stored.state = StateStopping
        · by_cases h4 : dc.state = "exited"
          · rw [transitionStep_stop_complete listing now st stored dc hm h3 h4, update_ttl]
          · rw [transitionStep_stop_incomplete listing now st stored dc hm h3 h4]
        · rw [transitionStep_nonsticky listing now st stored h1 h3]

theorem transitionStep_lookup_ne (listing : List Container) (now : Int) (st : Store)
    (stored : ContainerData) (i : String) (h : stored.id ≠ i) :
    (transitionStep listing now st stored).lookup i = st.lookup i := by
  cases hm : containerMapFind listing stored.id with
  | none => rw [transitionStep_absent listing now st stored hm]
  | some dc =>
      have hdc : dc.id = stored.id := containerMapFind_id listing stored.id dc hm
      have hne : i ≠ (toData dc).id := by
        show i ≠ dc.id
        rw [hdc]
        exact fun hsymm => h hsymm.symm
      by_cases h1 : stored.state = StateStarting
      · by_cases h2 : dc.state = "running"
        · rw [transitionStep_start_complete listing now st stored dc hm h1 h2,
            lookup_update_ne st (toData dc) now i hne]
        · rw [transitionStep_start_incomplete listing now st stored dc hm h1 h2]
      · by_cases h3 : stored.state = StateStopping
        · by_cases h4 : dc.state = "exited"
          · rw [transitionStep_stop_complete listing now st stored dc hm h3 h4,
              lookup_update_ne st (toData dc) now i hne]
          · rw [transitionStep_stop_incomplete listing now st stored dc hm h3 h4]
        · rw [transitionStep_nonsticky listing now st stored h1 h3]

theorem mergeStep_notfound (now : Int) (st : Store) (c : Container)
    (hget : st.get c.id now = none) :
    mergeStep now st c = st.update (toData c) now := by
  simp [mergeStep, hget]

theorem mergeStep_skip (now : Int) (st : Store) (c : Container) (stored : ContainerData)
    (hget : st.get c.id now = some stored)
    (hsticky : (stored.state == StateStarting || stored.state == StateStopping) = true) :
    mergeStep now st c = st := by
  simp only [mergeStep, hget]
  rw [if_pos hsticky]

theorem mergeStep_found (now : Int) (st : Store) (c : Container) (stored : ContainerData)
    (hget : st.get c.id now = some stored)
    (hsticky : (stored.state == StateStarting || stored.state == StateStopping) = false) :
    mergeStep now st c = st.update (toData c) now := by
  simp only [mergeStep, hget]
  rw [hsticky]
  simp

theorem mergeStep_ttl (now : Int) (st : Store) (c : Container) :
    (mergeStep now st c).ttl = st.ttl := by
  cases hget : st.get c.id now with
  | none => rw [mergeStep_notfound now st c hget, update_ttl]
  | some stored =>
      cases hsticky : (stored.state == StateStarting || stored.state == StateStopping) with
      | true => rw [mergeStep_skip now st c stored hget hsticky]
      | false => rw [mergeStep_found now st c stored hget hsticky, update_ttl]

theorem mergeStep_lookup_ne (now : Int) (st : Store) (c : Container) (i : String)
    (h : c.id ≠ i) : (mergeStep now st c).lookup i = st.lookup i := by
  have hne : i ≠ (toData c).id := fun hsymm => h hsymm.symm
  cases hget : st.get c.id now with
  | none => rw [mergeStep_notfound now st c hget, lookup_update_ne st (toData c) now i hne]
  | some stored =>
      cases hsticky : (stored.state == StateStarting || stored.state == StateStopping) with
      | true => rw [mergeStep_skip now st c stored hget hsticky]
      | false =>
          rw [mergeStep_found now st c stored hget hsticky,
            lookup_update_ne st (toData c) now i hne]

/-- Transition loop: if the step at every element carrying id i is a no-op,
the entry at i survives the whole loop. -/
theorem foldl_transition_invariant (listing : List Container) (now : Int)
    (i : String) (e : ContainerData)
    (hstep_e : ∀ acc, transitionStep listing now acc e = acc) :
    ∀ (xs : List ContainerData), (∀ x ∈ xs, x.id = i → x = e) →
      ∀ st : Store, st.lookup i = some e →
        (xs.foldl (transitionStep listing now) st).lookup i = some e := by
  intro xs
  induction xs with
  | nil => intro _ st hst; exact hst
  | cons x xs ih =>
      intro hcond st hst
      rw [List.foldl_cons]
      by_cases hx : x.id = i
      · rw [hcond x (List.mem_cons_self x xs) hx, hstep_e st]
        exact ih (fun y hy => hcond y (List.mem_cons_of_mem x hy)) st hst
      · exact ih (fun y hy => hcond y (List.mem_cons_of_mem x hy)) _
          (by rw [transitionStep_lookup_ne listing now st x i hx]; exact hst)

/-- Merge loop: a fresh entry whose cached state is sticky is never touched. -/
theorem foldl_merge_sticky (now : Int) (i : String) (v : ContainerData)
    (hsticky : (v.state == StateStarting || v.state == StateStopping) = true) :
    ∀ (cs : List Container) (st : Store), st.lookup i = some v → v.id = i →
      now - v.updated ≤ st.ttl →
      (cs.foldl (mergeStep now) st).lookup i = some v := by
  intro cs
  induction cs with
  | nil => intro st hv _ _; exact hv
  | cons c cs ih =>
      intro st hv hvi hfresh
      rw [List.foldl_cons]
      by_cases hc : c.id = i
      · have hget : st.get c.id now = some v := by
          rw [hc, get_of_lookup_some st i now v hv, if_neg (not_lt.mpr hfresh)]
        rw [mergeStep_skip now st c v hget hsticky]
        exact ih st hv hvi hfresh
      · exact ih _ (by rw [mergeStep_lookup_ne now st c i hc]; exact hv) hvi
          (by rw [mergeStep_ttl]; exact hfresh)

/-- Merge loop elements with other ids preserve the entry at i. -/
theorem foldl_merge_preserve (now : Int) (i : String) (cs : List Container)
    (hcs : ∀ c ∈ cs, c.id ≠ i) (st : Store) :
    (cs.foldl (mergeStep now) st).lookup i = st.lookup i := by
  induction cs generalizing st with
  | nil => rfl
  | cons c cs ih =>
      rw [List.foldl_cons, ih (fun x hx => hcs x (List.mem_cons_of_mem c hx)),
        mergeStep_lookup_ne now st c i (hcs c (List.mem_cons_self c cs))]

/-- Transition loop elements with other ids preserve the entry at i. -/
theorem foldl_transition_preserve (listing : List Container) (now : Int) (i : String)
    (xs : List ContainerData) (hxs : ∀ x ∈ xs, x.id ≠ i) (st : Store) :
    (xs.foldl (transitionStep listing now) st).lookup i = st.lookup i := by
  induction xs generalizing st with
  | nil => rfl
  | cons x xs ih =>
      rw [List.foldl_cons, ih (fun y hy => hxs y (List.mem_cons_of_mem x hy)),
        transitionStep_lookup_ne listing now st x i (hxs x (List.mem_cons_self x xs))]

/-- Transition phase, starting entry completed by a running listing entry. -/
theorem transition_phase_start (st : Store) (listing : List Container) (now : Int)
    (i : String) (e : ContainerData) (dc : Container)
    (hwf : (st.containers.map (fun c => c.id)).Nodup)
    (he : st.lookup i = some e)
    (hfresh : now - e.updated ≤ st.ttl)
    (hs : e.state = StateStarting)
    (hm : containerMapFind listing i = some dc)
    (hdc : dc.state = "running") :
    ((st.listNow now).foldl (transitionStep listing now) st).lookup i =
      some { toData dc with stats := e.stats, updated := now } := by
  have hei : e.id = i := lookup_id st i e he
  have hmem : e ∈ st.listNow now :=
    List.mem_filter.mpr ⟨lookup_mem st i e he, decide_eq_true hfresh⟩
  have hndL : ((st.listNow now).map (fun c => c.id)).Nodup :=
    List.Nodup.sublist (List.Sublist.map _ (List.filter_sublist _)) hwf
  obtain ⟨l1, l2, hsplit, h1, h2⟩ :=
    split_unique_keys (fun c => c.id) (st.listNow now) e i hndL hmem hei
  rw [hsplit, List.foldl_append, List.foldl_cons]
  have hst1 : (l1.foldl (transitionStep listing now) st).lookup i = some e := by
    rw [foldl_transition_preserve listing now i l1 h1 st]
    exact he
  have hm' : containerMapFind listing e.id = some dc := by
    rw [hei]
    exact hm
  rw [transitionStep_start_complete listing now _ e dc hm' hs hdc]
  have hdcid : dc.id = i := containerMapFind_id listing i dc hm
  have hlookup2 :
      (((l1.foldl (transitionStep listing now) st).update (toData dc) now)).lookup i =
        some { toData dc with stats := e.stats, updated := now } := by
    have h := lookup_update_live (l1.foldl (transitionStep listing now) st)
      (toData dc) now e
      (by show (l1.foldl (transitionStep listing now) st).lookup (toData dc).id = some e
          rw [show (toData dc).id = i from hdcid]
          exact hst1)
      (by show dc.state ≠ "exited"
          rw [hdc]
          decide)
    rw [← show (toData dc).id = i from hdcid]
    exact h
  rw [foldl_transition_preserve listing now i l2 h2 _]
  exact hlookup2

/-- Transition phase, stopping entry completed by an exited listing entry. -/
theorem transition_phase_stop (st : Store) (listing : List Container) (now : Int)
    (i : String) (e : ContainerData) (dc : Container)
    (hwf : (st.containers.map (fun c => c.id)).Nodup)
    (he : st.lookup i = some e)
    (hfresh : now - e.updated ≤ st.ttl)
    (hs : e.state = StateStopping)
    (hm : containerMapFind listing i = some dc)
    (hdc : dc.state = "exited") :
    ((st.listNow now).foldl (transitionStep listing now) st).lookup i =
      some { toData dc with updated := now } := by
  have hei : e.id = i := lookup_id st i e he
  have hmem : e ∈ st.listNow now :=
    List.mem_filter.mpr ⟨lookup_mem st i e he, decide_eq_true hfresh⟩
  have hndL : ((st.listNow now).map (fun c => c.id)).Nodup :=
    List.Nodup.sublist (List.Sublist.map _ (List.filter_sublist _)) hwf
  obtain ⟨l1, l2, hsplit, h1, h2⟩ :=
    split_unique_keys (fun c => c.id) (st.listNow now) e i hndL hmem hei
  rw [hsplit, List.foldl_append, List.foldl_cons]
  have hst1 : (l1.foldl (transitionStep listing now) st).lookup i = some e := by
    rw [foldl_transition_preserve listing now i l1 h1 st]
    exact he
  have hm' : containerMapFind listing e.id = some dc := by
    rw [hei]
    exact hm
  rw [transitionStep_stop_complete listing now _ e dc hm' hs hdc]
  have hdcid : dc.id = i := containerMapFind_id listing i dc hm
  have hlookup2 :
      (((l1.foldl (transitionStep listing now) st).update (toData dc) now)).lookup i =
        some { toData dc with updated := now } := by
    have h := lookup_update_exited (l1.foldl (transitionStep listing now) st)
      (toData dc) now e
      (by show (l1.foldl (transitionStep listing now) st).lookup (toData dc).id = some e
          rw [show (toData dc).id = i from hdcid]
          exact hst1)
      (by show dc.state = "exited"
          exact hdc)
    rw [← show (toData dc).id = i from hdcid]
    exact h
  rw [foldl_transition_preserve listing now i l2 h2 _]
  exact hlookup2

/-- Bulk-merge phase applied to a completed, no-longer-sticky entry at id i
whose updated stamp is now: the fold re-stores the same value. -/
theorem merge_phase_completed (now : Int) (i : String) (listing : List Container)
    (dc : Container) (st1 : Store) (v : ContainerData)
    (hl : (listing.map (fun c => c.id)).Nodup)
    (hm : containerMapFind listing i = some dc)
    (httl : 0 ≤ st1.ttl)
    (hv : st1.lookup i = some v)
    (hvupd : v.updated = now)
    (hnost : (v.state == StateStarting || v.state == StateStopping) = false)
    (hupd : ∀ acc : Store, acc.lookup i = some v →
      (acc.update (toData dc) now).lookup i = some v) :
    (listing.foldl (mergeStep now) st1).lookup i = some v := by
  have hdcid : dc.id = i := containerMapFind_id listing i dc hm
  have hmem : dc ∈ listing := containerMapFind_mem listing i dc hm
  obtain ⟨m1, m2, hsplit, hm1, hm2⟩ :=
    split_unique_keys (fun c => c.id) listing dc i hl hmem hdcid
  rw [hsplit, List.foldl_append, List.foldl_cons]
  have hst2 : (m1.foldl (mergeStep now) st1).lookup i = some v := by
    rw [foldl_merge_preserve now i m1 hm1 st1]
    exact hv
  have httl2 : (m1.foldl (mergeStep now) st1).ttl = st1.ttl :=
    foldl_ttl (mergeStep now) (mergeStep_ttl now) m1 st1
  have hget : (m1.foldl (mergeStep now) st1).get dc.id now = some v := by
    rw [hdcid, get_of_lookup_some _ i now v hst2, hvupd, httl2,
      if_neg (show ¬ st1.ttl < now - now by omega)]
  rw [mergeStep_found now _ dc v hget hnost]
  rw [foldl_merge_preserve now i m2 hm2 _]
  exact hupd _ hst2

/-- A whole SyncContainers run in which the transition step at the sticky
entry is a no-op leaves the entry untouched. -/
theorem syncContainers_noact (st : Store) (listing : List Container) (now : Int)
    (i : String) (e : ContainerData)
    (hwf : (st.containers.map (fun c => c.id)).Nodup)
    (he : st.lookup i = some e)
    (hfresh : now - e.updated ≤ st.ttl)
    (hsticky : (e.state == StateStarting || e.state == StateStopping) = true)
    (hstep_e : ∀ acc, transitionStep listing now acc e = acc) :
    (SyncContainers st listing now).lookup i = some e := by
  unfold SyncContainers
  have hei : e.id = i := lookup_id st i e he
  have hcond : ∀ x ∈ st.listNow now, x.id = i → x = e := by
    intro x hx hxi
    exact mem_eq_of_lookup st i e hwf he x (List.mem_filter.mp hx).1 hxi
  have hphase1 : ((st.listNow now).foldl (transitionStep listing now) st).lookup i =
      some e :=
    foldl_transition_invariant listing now i e hstep_e (st.listNow now) hcond st he
  have httl1 : ((st.listNow now).foldl (transitionStep listing now) st).ttl = st.ttl :=
    foldl_ttl (transitionStep listing now) (transitionStep_ttl listing now)
      (st.listNow now) st
  exact foldl_merge_sticky now i e hsticky listing _ hphase1 hei
    (by rw [httl1]; exact hfresh)

/-- SyncContainers, starting entry completed by a running listing entry: the
entry afterwards holds the fresh listing fields (stats carried forward,
timestamp refreshed). -/
theorem syncContainers_start_complete (st : Store) (listing : List Container)
    (now : Int) (i : String) (e : ContainerData) (dc : Container)
    (hwf : (st.containers.map (fun c => c.id)).Nodup)
    (hl : (listing.map (fun c => c.id)).Nodup)
    (httl : 0 ≤ st.ttl)
    (he : st.lookup i = some e)
    (hfresh : now - e.updated ≤ st.ttl)
    (hs : e.state = StateStarting)
    (hm : containerMapFind listing i = some dc)
    (hdc : dc.state = "running") :
    (SyncContainers st listing now).lookup i =
      some { toData dc with stats := e.stats, updated := now } := by
  unfold SyncContainers
  have hphase1 : ((st.listNow now).foldl (transitionStep listing now) st).lookup i =
      some { toData dc with stats := e.stats, updated := now } :=
    transition_phase_start st listing now i e dc hwf he hfresh hs hm hdc
  have httl1 : ((st.listNow now).foldl (transitionStep listing now) st).ttl = st.ttl :=
    foldl_ttl (transitionStep listing now) (transitionStep_ttl listing now)
      (st.listNow now) st
  apply merge_phase_completed now i listing dc _
    { toData dc with stats := e.stats, updated := now } hl hm
    (by rw [httl1]; exact httl) hphase1 rfl
  · show ((dc.state == StateStarting || dc.state == StateStopping)) = false
    rw [hdc]
    decide
  · intro acc hacc
    have h := lookup_update_live acc (toData dc) now
      { toData dc with stats := e.stats, updated := now }
      (by show acc.lookup (toData dc).id =
            some { toData dc with stats := e.stats, updated := now }
          rw [show (toData dc).id = i from containerMapFind_id listing i dc hm]
          exact hacc)
      (by show dc.state ≠ "exited"
          rw [hdc]
          decide)
    rw [← show (toData dc).id = i from containerMapFind_id listing i dc hm]
    exact h

/-- SyncContainers, stopping entry completed by an exited listing entry: the
entry afterwards holds the fresh listing fields (stats cleared by the
exited update, timestamp refreshed). -/
theorem syncContainers_stop_complete (st : Store) (listing : List Container)
    (now : Int) (i : String) (e : ContainerData) (dc : Container)
    (hwf : (st.containers.map (fun c => c.id)).Nodup)
    (hl : (listing.map (fun c => c.id)).Nodup)
    (httl : 0 ≤ st.ttl)
    (he : st.lookup i = some e)
    (hfresh : now - e.updated ≤ st.ttl)
    (hs : e.state = StateStopping)
    (hm : containerMapFind listing i = some dc)
    (hdc : dc.state = "exited") :
    (SyncContainers st listing now).lookup i =
      some { toData dc with updated := now } := by
  unfold SyncContainers
  have hphase1 : ((st.listNow now).foldl (transitionStep listing now) st).lookup i =
      some { toData dc with updated := now } :=
    transition_phase_stop st listing now i e dc hwf he hfresh hs hm hdc
  have httl1 : ((st.listNow now).foldl (transitionStep listing now) st).ttl = st.ttl :=
    foldl_ttl (transitionStep listing now) (transitionStep_ttl listing now)
      (st.listNow now) st
  apply merge_phase_completed now i listing dc _
    { toData dc with updated := now } hl hm
    (by rw [httl1]; exact httl) hphase1 rfl
  · show ((dc.state == StateStarting || dc.state == StateStopping)) = false
    rw [hdc]
    decide
  · intro acc hacc
    have h := lookup_update_exited acc (toData dc) now
      { toData dc with updated := now }
      (by show acc.lookup (toData dc).id = some { toData dc with updated := now }
          rw [show (toData dc).id = i from containerMapFind_id listing i dc hm]
          exact hacc)
      (by show dc.state = "exited"
          exact hdc)
    rw [← show (toData dc).id = i from containerMapFind_id listing i dc hm]
    exact h

/-! ## Claim C1: sticky transition resolution -/

/-- Claim C1 (amended): for a fresh (non-stale) cached entry and a listing
with distinct ids, a "starting" entry is overwritten with the fresh listing
fields exactly when the listing reports the id as "running" (any other
reported state, or absence from the listing, leaves it untouched by the
whole SyncContainers pass); symmetrically "stopping" completes on "exited";
and the bulk-merge loop alone never overwrites a fresh sticky entry. -/
theorem c1_sticky_transitions (st : Store) (listing : List Container) (now : Int)
    (i : String) (e : ContainerData)
    (hwf : (st.containers.map (fun c => c.id)).Nodup)
    (hl : (listing.map (fun c => c.id)).Nodup)
    (httl : 0 ≤ st.ttl)
    (he : st.lookup i = some e)
    (hfresh : now - e.updated ≤ st.ttl) :
    (e.state = StateStarting →
      (∀ dc, containerMapFind listing i = some dc → dc.state = "running" →
        (SyncContainers st listing now).lookup i =
          some { toData dc with stats := e.stats, updated := now }) ∧
      (∀ dc, containerMapFind listing i = some dc → dc.state ≠ "running" →
        (SyncContainers st listing now).lookup i = some e) ∧
      (containerMapFind listing i = none →
        (SyncContainers st listing now).lookup i = some e)) ∧
    (e.state = StateStopping →
      (∀ dc, containerMapFind listing i = some dc → dc.state = "exited" →
        (SyncContainers st listing now).lookup i =
          some { toData dc with updated := now }) ∧
      (∀ dc, containerMapFind listing i = some dc → dc.state ≠ "exited" →
        (SyncContainers st listing now).lookup i = some e) ∧
      (containerMapFind listing i = none →
        (SyncContainers st listing now).lookup i = some e)) ∧
    ((e.state == StateStarting || e.state == StateStopping) = true →
      (listing.foldl (mergeStep now) st).lookup i = some e) := by
  have hei : e.id = i := lookup_id st i e he
  refine ⟨fun hs => ⟨?_, ?_, ?_⟩, fun hs => ⟨?_, ?_, ?_⟩, fun hsticky => ?_⟩
  · intro dc hm hdc
    exact syncContainers_start_complete st listing now i e dc hwf hl httl he hfresh
      hs hm hdc
  · intro dc hm hdc
    exact syncContainers_noact st listing now i e hwf he hfresh
      (by rw [hs]; decide)
      (fun acc => transitionStep_start_incomplete listing now acc e dc
        (by rw [hei]; exact hm) hs hdc)
  · intro hm
    exact syncContainers_noact st listing now i e hwf he hfresh
      (by rw [hs]; decide)
      (fun acc => transitionStep_absent listing now acc e (by rw [hei]; exact hm))
  · intro dc hm hdc
    exact syncContainers_stop_complete st listing now i e dc hwf hl httl he hfresh
      hs hm hdc
  · intro dc hm hdc
    exact syncContainers_noact st listing now i e hwf he hfresh
      (by rw [hs]; decide)
      (fun acc => transitionStep_stop_incomplete listing now acc e dc
        (by rw [hei]; exact hm) hs hdc)
  · intro hm
    exact syncContainers_noact st listing now i e hwf he hfresh
      (by rw [hs]; decide)
      (fun acc => transitionStep_absent listing now acc e (by rw [hei]; exact hm))
  · exact foldl_merge_sticky now i e hsticky listing st he hei hfresh

def entryStarting : ContainerData :=
  { id := "a", names := ["n"], image := "img", state := "starting",
    status := "Starting", created := 3, stats := some statSigma, updated := 0 }

def stSticky : Store := { containers := [entryStarting], ttl := 10 }

def listingRunning : List Container :=
  [{ id := "a", names := ["n2"], image := "img2", state := "running",
     status := "Up 1 second", created := 4 }]

def listingPending : List Container :=
  [{ id := "a", names := ["n2"], image := "img2", state := "pending",
     status := "Pending", created := 4 }]

theorem c1_sticky_transitions_witness :
    entryStarting.state = StateStarting ∧
    stSticky.lookup "a" = some entryStarting ∧
    (SyncContainers stSticky listingRunning 5).lookup "a" =
      some { toData { id := "a", names := ["n2"], image := "img2", state := "running",
                      status := "Up 1 second", created := 4 } with
             stats := some statSigma, updated := 5 } ∧
    (SyncContainers stSticky listingPending 5).lookup "a" = some entryStarting := by
  have hrun := (c1_sticky_transitions stSticky listingRunning 5 "a" entryStarting
    (by decide) (by decide) (by decide) (by decide) (by decide)).1 (by decide)
  have hpend := (c1_sticky_transitions stSticky listingPending 5 "a" entryStarting
    (by decide) (by decide) (by decide) (by decide) (by decide)).1 (by decide)
  refine ⟨by decide, by decide, ?_, ?_⟩
  · exact hrun.1
      { id := "a", names := ["n2"], image := "img2", state := "running",
        status := "Up 1 second", created := 4 } (by decide) (by decide)
  · exact hpend.2.1
      { id := "a", names := ["n2"], image := "img2", state := "pending",
        status := "Pending", created := 4 } (by decide) (by decide)

/-- Counterexample to C1 as stated over every cache state: a STALE entry in
state "starting" is overwritten by the bulk-merge loop even though the
listing reports a state other than "running" — the transition loop and the
merge-phase Get both ignore stale entries. -/
def listingCreated : List Container :=
  [{ id := "a", names := ["n2"], image := "img2", state := "created",
     status := "Created", created := 4 }]

theorem c1_counterexample :
    entryStarting.state = StateStarting ∧
    stSticky.lookup "a" = some entryStarting ∧
    (SyncContainers stSticky listingCreated 100).lookup "a" ≠ some entryStarting ∧
    ((SyncContainers stSticky listingCreated 100).lookup "a").map (fun c => c.state) =
      some "created" := by
  refine ⟨by decide, by decide, by decide, by decide⟩

theorem c10_stale_carry_forward_witness :
    stWitness.lookup "a" = some entryRunning ∧
    stWitness.ttl < 100 - entryRunning.updated ∧
    (stWitness.update snapPending 100).lookup "a" =
      some { snapPending with stats := some statSigma, updated := 100 } ∧
    (stWitness.update snapPending 100).get "a" 100 =
      some { snapPending with stats := some statSigma, updated := 100 } := by
  have h := c10_stale_carry_forward stWitness "a" entryRunning snapPending 100
    (by decide) (by decide) (by decide) (by decide) (by decide)
  exact ⟨by decide, by decide, h.1, h.2.1⟩

/-! ## Claim C5: lifecycle rollback -/

def stEmpty : Store := { containers := [], ttl := 60 }

def postListingExited : List Container :=
  [{ id := "abc", names := ["x"], image := "i", state := "exited",
     status := "Exited (1)", created := 9 }]

/-- Claim C5 evaluated at the failing input: the container is unknown to both
the cache and the pre-command listing (which fails), so the optimistic
marker is written under the zero value's ID "" instead of the requested
id; when the start command fails and the re-query reports the container as
exited, the rollback again writes under "" — afterwards there is NO cache
entry for the requested id at all, contradicting the claim (and §4.4 of
the spec, which requires the seeded empty snapshot to carry the given id). -/
theorem c5_rollback_failing_input :
    (StartContainer stEmpty "abc" none (some "boom") (some postListingExited) 5).2 =
      some "boom" ∧
    ((StartContainer stEmpty "abc" none (some "boom") (some postListingExited) 5).1).lookup
      "abc" = none ∧
    ((StartContainer stEmpty "abc" none (some "boom") (some postListingExited) 5).1).lookup
      "" = some { id := "", names := [], image := "", state := "exited",
                  status := "Exited (1)", created := 0, stats := none, updated := 5 } := by
  refine ⟨by decide, by decide, by decide⟩

/-! ## Claim C7: CPU usage computation -/

/-- The CPU usage formula exactly as the claim states it:
(cpuDelta / systemDelta) * 100 * onlineCores with onlineCores taken as 1
when the remote reports 0 cores. -/
def specCpuUsagePercent (raw : ContainerStats) : ℚ :=
  ((sub64 raw.cpuTotalUsage raw.preCpuTotalUsage : ℚ) /
      (sub64 raw.systemCPUUsage raw.preSystemCPUUsage : ℚ)) * 100 *
    (if raw.onlineCPUs = 0 then (1 : ℚ) else (raw.onlineCPUs : ℚ))

/-- Claim C7: with both deltas positive, the stored CPU usage percent is the
claim's formula quantized to 2 decimal places: it is an integer multiple
of 1/100 lying within 1/100 below the exact formula value (the code
truncates toward zero via float64(int(p*100))/100). -/
theorem c7_cpu_usage (raw : ContainerStats)
    (h1 : 0 < sub64 raw.cpuTotalUsage raw.preCpuTotalUsage)
    (h2 : 0 < sub64 raw.systemCPUUsage raw.preSystemCPUUsage) :
    (computeStats raw).cpuUsage = (truncQ (specCpuUsagePercent raw * 100) : ℚ) / 100 ∧
    (∃ k : ℤ, (computeStats raw).cpuUsage = (k : ℚ) / 100) ∧
    specCpuUsagePercent raw - 1 / 100 < (computeStats raw).cpuUsage ∧
    (computeStats raw).cpuUsage ≤ specCpuUsagePercent raw := by
  have hcond : 0 < sub64 raw.systemCPUUsage raw.preSystemCPUUsage ∧
      0 < sub64 raw.cpuTotalUsage raw.preCpuTotalUsage := ⟨h2, h1⟩
  have heq : (computeStats raw).cpuUsage =
      (truncQ (specCpuUsagePercent raw * 100) : ℚ) / 100 := by
    simp only [computeStats, specCpuUsagePercent]
    rw [if_pos hcond]
  have hspec0 : 0 ≤ specCpuUsagePercent raw := by
    unfold specCpuUsagePercent
    apply mul_nonneg
    · apply mul_nonneg
      · exact div_nonneg (Nat.cast_nonneg _) (Nat.cast_nonneg _)
      · norm_num
    · split_ifs
      · norm_num
      · exact Nat.cast_nonneg _
  have hx0 : 0 ≤ specCpuUsagePercent raw * 100 := by positivity
  have htr : truncQ (specCpuUsagePercent raw * 100) =
      ⌊specCpuUsagePercent raw * 100⌋ := if_pos hx0
  have hfl : (⌊specCpuUsagePercent raw * 100⌋ : ℚ) ≤ specCpuUsagePercent raw * 100 :=
    Int.floor_le _
  have hfu : specCpuUsagePercent raw * 100 < (⌊specCpuUsagePercent raw * 100⌋ : ℚ) + 1 :=
    Int.lt_floor_add_one _
  refine ⟨heq, ⟨truncQ (specCpuUsagePercent raw * 100), heq⟩, ?_, ?_⟩
  · rw [heq, htr]
    linarith
  · rw [heq, htr]
    linarith

def rawTest : ContainerStats :=
  { cpuTotalUsage := 100000000, systemCPUUsage := 1000000000, onlineCPUs := 4,
    preCpuTotalUsage := 90000000, preSystemCPUUsage := 990000000,
    memUsage := 104857600, memLimit := 1073741824 }

theorem c7_cpu_usage_witness :
    0 < sub64 rawTest.cpuTotalUsage rawTest.preCpuTotalUsage ∧
    0 < sub64 rawTest.systemCPUUsage rawTest.preSystemCPUUsage ∧
    (computeStats rawTest).cpuUsage =
      (truncQ (specCpuUsagePercent rawTest * 100) : ℚ) / 100 ∧
    (computeStats rawTest).cpuUsage = 400 := by
  refine ⟨by decide, by decide, (c7_cpu_usage rawTest (by decide) (by decide)).1, ?_⟩
  rw [(c7_cpu_usage rawTest (by decide) (by decide)).1]
  norm_num [specCpuUsagePercent, sub64, U64, truncQ, rawTest]

/-! ## Claim C8: non-positive delta skip -/

theorem syncStatsStep_lookup_ne (fetch : String → Option ContainerStats) (now : Int)
    (st : Store) (c : Container) (i : String) (h : c.id ≠ i) :
    (syncStatsStep fetch now st c).lookup i = st.lookup i := by
  unfold syncStatsStep
  by_cases hr : (c.state == "running") = true
  · rw [if_pos hr]
    cases hf : fetch c.id with
    | none => rfl
    | some raw =>
        exact lookup_updateStats_ne st c.id (some (computeStats raw)) now i
          (fun hsymm => h hsymm.symm)
  · rw [if_neg hr]

theorem foldl_syncStats_preserve (fetch : String → Option ContainerStats) (now : Int)
    (i : String) (cs : List Container) (hcs : ∀ c ∈ cs, c.id ≠ i) (st : Store) :
    (cs.foldl (syncStatsStep fetch now) st).lookup i = st.lookup i := by
  induction cs generalizing st with
  | nil => rfl
  | cons c cs ih =>
      rw [List.foldl_cons, ih (fun x hx => hcs x (List.mem_cons_of_mem c hx)),
        syncStatsStep_lookup_ne fetch now st c i (hcs c (List.mem_cons_self c cs))]

/-- Claim C8 (amended): when a running container's sample yields
systemDelta = 0 or cpuDelta = 0 (uint64 deltas are never negative), the
CPU-percentage computation is skipped, but the freshly built stats record
— whose usage field is the zero value 0 — still replaces the entry's
stats via UpdateStats; afterwards the entry's CPU usage percent is 0, not
its prior value, while memory and systemMs are updated. -/
theorem c8_nonpositive_delta (st : Store) (listing : List Container)
    (fetch : String → Option ContainerStats) (now : Int) (i : String)
    (e : ContainerData) (c : Container) (raw : ContainerStats)
    (hl : (listing.map (fun x => x.id)).Nodup)
    (hc : c ∈ listing) (hcid : c.id = i) (hrun : c.state = "running")
    (hf : fetch i = some raw)
    (hdelta : sub64 raw.systemCPUUsage raw.preSystemCPUUsage = 0 ∨
      sub64 raw.cpuTotalUsage raw.preCpuTotalUsage = 0)
    (he : st.lookup i = some e) :
    (SyncStats st listing fetch now).lookup i =
      some { e with stats := some (computeStats raw), updated := now } ∧
    (computeStats raw).cpuUsage = 0 := by
  have husage : (computeStats raw).cpuUsage = 0 := by
    simp only [computeStats]
    rw [if_neg]
    intro hcond
    rcases hdelta with h | h
    · omega
    · omega
  refine ⟨?_, husage⟩
  obtain ⟨m1, m2, hsplit, h1, h2⟩ :=
    split_unique_keys (fun x => x.id) listing c i hl hc hcid
  unfold SyncStats
  rw [hsplit, List.foldl_append, List.foldl_cons]
  have hst1 : (m1.foldl (syncStatsStep fetch now) st).lookup i = some e := by
    rw [foldl_syncStats_preserve fetch now i m1 h1 st]
    exact he
  have hstep : (syncStatsStep fetch now (m1.foldl (syncStatsStep fetch now) st) c).lookup
      i = some { e with stats := some (computeStats raw), updated := now } := by
    unfold syncStatsStep
    rw [if_pos (by rw [hrun]; decide), hcid, hf]
    exact lookup_updateStats_self _ i (some (computeStats raw)) now e hst1
  rw [foldl_syncStats_preserve fetch now i m2 h2 _]
  exact hstep

def contRunning : Container :=
  { id := "a", names := [], image := "", state := "running",
    status := "Up", created := 0 }

def rawZeroDelta : ContainerStats :=
  { cpuTotalUsage := 5, systemCPUUsage := 9, onlineCPUs := 2,
    preCpuTotalUsage := 5, preSystemCPUUsage := 4, memUsage := 11, memLimit := 12 }

theorem c8_nonpositive_delta_witness :
    sub64 rawZeroDelta.cpuTotalUsage rawZeroDelta.preCpuTotalUsage = 0 ∧
    stWitness.lookup "a" = some entryRunning ∧
    (SyncStats stWitness [contRunning] (fun _ => some rawZeroDelta) 5).lookup "a" =
      some { entryRunning with
             stats := some (computeStats rawZeroDelta), updated := 5 } ∧
    (computeStats rawZeroDelta).cpuUsage = 0 := by
  have h := c8_nonpositive_delta stWitness [contRunning]
    (fun _ => some rawZeroDelta) 5 "a" entryRunning contRunning rawZeroDelta
    (by decide) (by decide) (by decide) (by decide) (by decide)
    (by right; decide) (by decide)
  exact ⟨by decide, by decide, h.1, h.2⟩

/-- Counterexample to C8 as stated: the entry's prior CPU usage percent was
50, the sample's cpuDelta is 0, and after the enrichment cycle the stored
CPU usage percent is 0, not 50. -/
theorem c8_counterexample :
    (entryRunning.stats.map (fun s => s.cpuUsage)) = some 50 ∧
    ((SyncStats stWitness [contRunning] (fun _ => some rawZeroDelta) 5).lookup "a").map
      (fun x => x.stats.map (fun s => s.cpuUsage)) = some (some 0) ∧
    (0 : ℚ) ≠ 50 := by
  refine ⟨by decide, by decide, by decide⟩

/-! ## Claim C6: display ordering -/

/-- The status priority exactly as the claim lists it. -/
def specPriority (state : String) : Nat :=
  if state = "running" then 0
  else if state = "stopping" then 1
  else if state = "starting" then 2
  else if state = "exited" then 3
  else 4

/-- The claim's display order as a non-strict relation: status priority
first; among equal priorities entries with stats precede entries without;
two entries that both have stats are ordered by memory usage descending;
all remaining ties are ordered by creation timestamp descending. -/
def specLE (a b : ContainerData) : Prop :=
  specPriority a.state < specPriority b.state ∨
  (specPriority a.state = specPriority b.state ∧
    ((a.stats.isSome = true ∧ b.stats = none) ∨
     (∃ sa sb, a.stats = some sa ∧ b.stats = some sb ∧
       (sb.memUsage < sa.memUsage ∨
        (sa.memUsage = sb.memUsage ∧ b.created ≤ a.created))) ∨
     (a.stats = none ∧ b.stats = none ∧ b.created ≤ a.created)))

theorem specPriority_eq (s : String) : specPriority s = getStatusPriority s := by
  by_cases h1 : s = "running" <;> by_cases h2 : s = "stopping" <;>
    by_cases h3 : s = "starting" <;> by_cases h4 : s = "exited" <;>
      simp [specPriority, getStatusPriority, StateStarting, StateStopping,
        h1, h2, h3, h4]

/-- The comparator's complement implies the claim's non-strict order. -/
theorem specLE_of_not_less (a b : ContainerData)
    (h : containerLess b a = false) : specLE a b := by
  unfold containerLess at h
  unfold specLE
  rw [specPriority_eq, specPriority_eq]
  by_cases hp : getStatusPriority b.state ≠ getStatusPriority a.state
  · rw [if_pos hp] at h
    have hlt := of_decide_eq_false h
    left
    omega
  · rw [if_neg hp] at h
    have hpe : getStatusPriority a.state = getStatusPriority b.state := by omega
    right
    refine ⟨hpe, ?_⟩
    rcases hb : b.stats with _ | sb
    · rcases ha : a.stats with _ | sa
      · rw [hb, ha] at h
        have h' : decide (b.created > a.created) = false := h
        have := of_decide_eq_false h'
        exact Or.inr (Or.inr ⟨rfl, rfl, by omega⟩)
      · exact Or.inl ⟨rfl, rfl⟩
    · rcases ha : a.stats with _ | sa
      · rw [hb, ha] at h
        have h' : (true : Bool) = false := h
        exact absurd h' (by decide)
      · rw [hb, ha] at h
        have h' : (if sb.memUsage ≠ sa.memUsage then decide (sb.memUsage > sa.memUsage)
            else decide (b.created > a.created)) = false := h
        refine Or.inr (Or.inl ⟨sa, sb, rfl, rfl, ?_⟩)
        by_cases hm : sb.memUsage ≠ sa.memUsage
        · rw [if_pos hm] at h'
          have := of_decide_eq_false h'
          left
          omega
        · rw [if_neg hm] at h'
          have := of_decide_eq_false h'
          right
          exact ⟨by omega, by omega⟩

def srank (c : ContainerData) : Nat :=
  match c.stats with
  | some _ => 0
  | none => 1

def mkey (c : ContainerData) : Int :=
  match c.stats with
  | some s => -(s.memUsage : Int)
  | none => 0

/-- The comparator as a lexicographic strict order on a four-part key
(priority, has-stats rank, negated memory, negated creation time). -/
def keyLT (a b : ContainerData) : Prop :=
  getStatusPriority a.state < getStatusPriority b.state ∨
  (getStatusPriority a.state = getStatusPriority b.state ∧
    (srank a < srank b ∨ (srank a = srank b ∧
      (mkey a < mkey b ∨ (mkey a = mkey b ∧ -a.created < -b.created)))))

theorem less_iff_keyLT (a b : ContainerData) :
    containerLess a b = true ↔ keyLT a b := by
  rcases ha : a.stats with _ | sa <;> rcases hb : b.stats with _ | sb <;>
    by_cases hp : getStatusPriority a.state = getStatusPriority b.state <;>
      simp [containerLess, keyLT, srank, mkey, ha, hb, hp] <;>
        first
          | omega
          | (split_ifs <;> omega)

theorem lessLe_trans (a b c : ContainerData)
    (h1 : (! containerLess b a) = true) (h2 : (! containerLess c b) = true) :
    (! containerLess c a) = true := by
  rw [Bool.not_eq_true'] at h1 h2 ⊢
  rw [← Bool.not_eq_true, less_iff_keyLT] at h1 h2 ⊢
  unfold keyLT at h1 h2 ⊢
  omega

theorem lessLe_total (a b : ContainerData) :
    ((! containerLess b a) || (! containerLess a b)) = true := by
  rw [Bool.or_eq_true, Bool.not_eq_true', Bool.not_eq_true']
  by_cases h1 : containerLess b a = true
  · right
    rw [less_iff_keyLT] at h1
    rw [← Bool.not_eq_true, less_iff_keyLT]
    unfold keyLT at h1 ⊢
    omega
  · left
    exact Bool.eq_false_iff.mpr h1

/-- Claim C6: the service's list output is a permutation of the TTL-filtered
store contents, sorted by the claim's order: status priority
running < stopping < starting < exited < other; among equal priorities
entries with stats first, two stats-carrying entries by memory usage
descending, and all remaining ties by creation time descending. -/
theorem c6_display_ordering (st : Store) (now : Int) :
    (serviceList st now).Perm (st.listNow now) ∧
    (serviceList st now).Pairwise specLE := by
  constructor
  · exact List.mergeSort_perm (st.listNow now) _
  · have hs := List.sorted_mergeSort lessLe_trans lessLe_total (st.listNow now)
    exact hs.imp (fun hab => specLE_of_not_less _ _ (by simpa using hab))

end Duh
